import Mathlib

/-!
Verification development for the thapar-task-hub repository: a shallow
embedding of its Supabase schema (tables, check constraints, row-level
security policies, the signup trigger) and of the client-side operations
(Dashboard, CreateTaskModal, ReviewModal, Profile), with theorems about
the task lifecycle, the authorization policies and the validation logic.

Modelling conventions: uuids and timestamps are natural numbers, SQL
`numeric` and JavaScript numbers are rationals, nullable columns are
`Option` values, and the database tables are lists of rows.
-/

abbrev UserId := Nat
abbrev TaskId := Nat
abbrev Uuid := Nat
abbrev Timestamp := Nat

/-- A row of `public.users` (schema in the base migration, plus the
`phone` column added by `20250925191500_add_phone_and_tasker_info.sql`). -/
structure UserRow where
  id : UserId
  name : String
  phone : Option String
  role : String
  deriving DecidableEq, Repr

/-- A row of `public.tasks`.  `price` is rational because a later
migration changes the column from `int` to `numeric`. -/
structure TaskRow where
  id : TaskId
  poster_id : UserId
  title : String
  description : Option String
  price : ℚ
  status : String
  deadline : Option Timestamp
  created_at : Timestamp
  deriving DecidableEq, Repr

/-- A row of `public.task_assignments`. -/
structure AssignmentRow where
  id : Uuid
  task_id : TaskId
  tasker_id : UserId
  accepted_at : Timestamp
  completed_at : Option Timestamp
  deriving DecidableEq, Repr

/-- A row of `public.reviews`.  The client always supplies a rating, so
`rating` is modelled as a (non-null) integer. -/
structure ReviewRow where
  id : Uuid
  task_id : TaskId
  reviewer_id : UserId
  reviewee_id : UserId
  rating : Int
  comment : Option String
  created_at : Timestamp
  deriving DecidableEq, Repr

/-- The database state: the four tables the application reads and writes. -/
structure DB where
  users : List UserRow
  tasks : List TaskRow
  task_assignments : List AssignmentRow
  reviews : List ReviewRow
  deriving DecidableEq, Repr

/-- The check constraint `status in ('open','accepted','completed')` on
`public.tasks`. -/
def statusCheck (s : String) : Bool :=
  decide (s = "open") || decide (s = "accepted") || decide (s = "completed")

/-- The check constraints on a `public.tasks` row: `price >= 0` and the
status check. -/
def taskRowCheck (t : TaskRow) : Bool :=
  decide (0 ≤ t.price) && statusCheck t.status

/-- The check constraint `rating between 1 and 5` on `public.reviews`. -/
def ratingCheck (r : Int) : Bool :=
  decide (1 ≤ r) && decide (r ≤ 5)

/-- The check constraint `role in ('poster','tasker','both')` on
`public.users`. -/
def userRowCheck (u : UserRow) : Bool :=
  decide (u.role = "poster") || decide (u.role = "tasker") || decide (u.role = "both")

/-! ### Row-level security policies (from the base migration SQL) -/

/-- Policy "Users can view all profiles": `for select using (true)`. -/
def usersSelectPolicy (_uid : UserId) (_u : UserRow) : Bool := true

/-- Policy "Users can update own profile": `using (auth.uid() = id)`. -/
def usersUpdatePolicy (uid : UserId) (u : UserRow) : Bool := decide (uid = u.id)

/-- Policy "Users can insert own profile": `with check (auth.uid() = id)`. -/
def usersInsertPolicy (uid : UserId) (u : UserRow) : Bool := decide (uid = u.id)

/-- Policy "Anyone can view open tasks": `for select using (true)`.
Despite its name, the `using` clause is the constant `true`. -/
def tasksSelectPolicy (_uid : UserId) (_t : TaskRow) : Bool := true

/-- Policy "Posters can create tasks": `with check (auth.uid() = poster_id)`. -/
def tasksInsertPolicy (uid : UserId) (t : TaskRow) : Bool := decide (uid = t.poster_id)

/-- Policy "Posters can update own tasks": `using (auth.uid() = poster_id)`. -/
def tasksUpdatePolicy (uid : UserId) (t : TaskRow) : Bool := decide (uid = t.poster_id)

/-- Policy "Posters can delete own tasks": `using (auth.uid() = poster_id)`. -/
def tasksDeletePolicy (uid : UserId) (t : TaskRow) : Bool := decide (uid = t.poster_id)

/-- Policy "Taskers can create assignments": `with check (auth.uid() = tasker_id)`. -/
def assignmentsInsertPolicy (uid : UserId) (a : AssignmentRow) : Bool :=
  decide (uid = a.tasker_id)

/-- Policy "Users can create reviews for completed tasks", as written:

    with check ( auth.uid() = reviewer_id and exists (
      select 1 from public.task_assignments ta
      join public.tasks t on ta.task_id = t.id
      where ta.task_id = task_id and ta.completed_at is not null
      and (auth.uid() = t.poster_id or auth.uid() = ta.tasker_id)))

In the subquery the unqualified `task_id` resolves to the innermost
scope first, i.e. to `ta.task_id` (the `tasks` table has no `task_id`
column), so `ta.task_id = task_id` compares `ta.task_id` with itself and
is always true.  The inserted review's own `task_id` is therefore not
constrained: the condition only requires SOME completed assignment whose
task the caller posted, or which the caller took. -/
def reviewsInsertPolicy (uid : UserId) (r : ReviewRow) (db : DB) : Bool :=
  decide (uid = r.reviewer_id) &&
  db.task_assignments.any (fun ta =>
    db.tasks.any (fun t =>
      decide (ta.task_id = t.id) && ta.completed_at.isSome &&
      (decide (uid = t.poster_id) || decide (uid = ta.tasker_id))))

/-- The reviews insert policy as the specification reads it: the
`exists` subquery correlated with the inserted review's `task_id`, so
the review's own task must have a completed assignment and the caller
must be that task's poster or that assignment's tasker. -/
def reviewsInsertPolicyIntended (uid : UserId) (r : ReviewRow) (db : DB) : Bool :=
  decide (uid = r.reviewer_id) &&
  db.task_assignments.any (fun ta =>
    db.tasks.any (fun t =>
      decide (ta.task_id = t.id) && decide (ta.task_id = r.task_id) &&
      ta.completed_at.isSome &&
      (decide (uid = t.poster_id) || decide (uid = ta.tasker_id))))

/-! ### Policy-guarded table primitives

Inserts return `none` when the with-check policy, a check constraint or
primary-key uniqueness rejects the row (the table is then unchanged).
Updates and deletes act row by row: a row is touched only when the
`using` clause of the corresponding policy holds for the caller; an
updated row additionally must pass the table's check constraints. -/

def insertTaskRow (uid : UserId) (row : TaskRow) (db : DB) : Option DB :=
  if tasksInsertPolicy uid row && taskRowCheck row &&
      db.tasks.all (fun t => decide (t.id ≠ row.id)) then
    some { db with tasks := row :: db.tasks }
  else none

def updateTaskRow (uid : UserId) (tid : TaskId) (f : TaskRow → TaskRow) (db : DB) : DB :=
  { db with tasks := db.tasks.map (fun t =>
      if decide (t.id = tid) && tasksUpdatePolicy uid t && taskRowCheck (f t)
      then f t else t) }

def deleteTaskRow (uid : UserId) (tid : TaskId) (db : DB) : DB :=
  { db with tasks := db.tasks.filter (fun t =>
      !(decide (t.id = tid) && tasksDeletePolicy uid t)) }

def insertUserRow (uid : UserId) (row : UserRow) (db : DB) : Option DB :=
  if usersInsertPolicy uid row && userRowCheck row &&
      db.users.all (fun u => decide (u.id ≠ row.id)) then
    some { db with users := row :: db.users }
  else none

def updateUserRow (uid : UserId) (i : UserId) (f : UserRow → UserRow) (db : DB) : DB :=
  { db with users := db.users.map (fun u =>
      if decide (u.id = i) && usersUpdatePolicy uid u && userRowCheck (f u)
      then f u else u) }

def selectUsers (uid : UserId) (db : DB) : List UserRow :=
  db.users.filter (fun u => usersSelectPolicy uid u)

def insertAssignmentRow (uid : UserId) (row : AssignmentRow) (db : DB) : Option DB :=
  if assignmentsInsertPolicy uid row &&
      db.task_assignments.all (fun a => decide (a.id ≠ row.id)) then
    some { db with task_assignments := row :: db.task_assignments }
  else none

def insertReviewRow (uid : UserId) (row : ReviewRow) (db : DB) : Option DB :=
  if reviewsInsertPolicy uid row db && ratingCheck row.rating &&
      db.reviews.all (fun r => decide (r.id ≠ row.id)) then
    some { db with reviews := row :: db.reviews }
  else none

/-! ### The signup trigger -/

/-- A freshly inserted `auth.users` record: its id, email and the
`raw_user_meta_data` fields the trigger reads (`none` = absent/null). -/
structure AuthUser where
  id : UserId
  email : String
  meta_name : Option String
  meta_phone : Option String
  deriving DecidableEq, Repr

/-- The profile row built by `public.handle_new_user` (version of
migration `20250925191500_add_phone_and_tasker_info.sql`):
`coalesce(new.raw_user_meta_data->>'name', new.email)`,
`nullif(new.raw_user_meta_data->>'phone','')` and role `'both'`. -/
def handleNewUserRow (new : AuthUser) : UserRow :=
  { id := new.id,
    name := new.meta_name.getD new.email,
    phone := match new.meta_phone with
      | none => none
      | some p => if p = "" then none else some p,
    role := "both" }

/-- `public.handle_new_user`: insert the profile row,
`on conflict (id) do nothing`.  Runs as `security definer`, so no
row-level policy applies. -/
def handle_new_user (new : AuthUser) (users : List UserRow) : List UserRow :=
  if users.any (fun u => decide (u.id = new.id)) then users
  else handleNewUserRow new :: users

/-! ### Client-side operations and server-side procedures -/

/-- Strip leading whitespace characters from a character list, then
trailing ones. -/
def trimChars (l : List Char) : List Char :=
  ((l.dropWhile Char.isWhitespace).reverse.dropWhile Char.isWhitespace).reverse

/-- JavaScript `String.prototype.trim`: remove leading and trailing
whitespace. -/
def jsTrim (s : String) : String := String.mk (trimChars s.data)

/-- The zod `taskSchema` of CreateTaskModal: title trimmed to 5–100
characters, description trimmed to at most 500 characters, price a
number between 10 and 10000 (both inclusive). -/
def taskSchemaCheck (title description : String) (price : ℚ) : Bool :=
  decide (5 ≤ (jsTrim title).length) && decide ((jsTrim title).length ≤ 100) &&
  decide ((jsTrim description).length ≤ 500) &&
  decide (10 ≤ price) && decide (price ≤ 10000)

/-- `CreateTaskModal.handleSubmit`, validation half: the row it would
insert (trimmed title and description, `status: 'open'`), or `none`
when `taskSchema.parse` throws. -/
def createTaskRow (uid : UserId) (title description : String) (price : ℚ)
    (deadline : Option Timestamp) (tid : TaskId) (now : Timestamp) : Option TaskRow :=
  if taskSchemaCheck title description price then
    some { id := tid, poster_id := uid, title := jsTrim title,
           description := some (jsTrim description), price := price,
           status := "open", deadline := deadline, created_at := now }
  else none

/-- `CreateTaskModal.handleSubmit`: validate, then insert into `tasks`.
On a validation or database error the table is unchanged. -/
def createTask (uid : UserId) (title description : String) (price : ℚ)
    (deadline : Option Timestamp) (tid : TaskId) (now : Timestamp) (db : DB) : DB :=
  match createTaskRow uid title description price deadline tid now with
  | some row => (insertTaskRow uid row db).getD db
  | none => db

/-- Modelled from the spec: the database trigger that updates a task's
status when an assignment is inserted is not among the source files
(Dashboard.tsx only mentions it: "ensure DB trigger (status update) is
reflected").  Per the spec's lifecycle "open → accepted", it marks the
newly assigned task `'accepted'` when it is `'open'`. -/
def assignmentStatusTrigger (tid : TaskId) (db : DB) : DB :=
  { db with tasks := db.tasks.map (fun t =>
      if decide (t.id = tid) && decide (t.status = "open")
      then { t with status := "accepted" } else t) }

/-- `Dashboard.acceptTask`: insert a `task_assignments` row for the
current user; on success the status-update trigger fires. -/
def acceptTask (uid : UserId) (tid : TaskId) (now : Timestamp) (aid : Uuid) (db : DB) : DB :=
  match insertAssignmentRow uid
      { id := aid, task_id := tid, tasker_id := uid,
        accepted_at := now, completed_at := none } db with
  | some db1 => assignmentStatusTrigger tid db1
  | none => db

/-- Modelled from the spec: the stored procedure `mark_task_completed`
called by `Dashboard.markTaskComplete` is not among the source files.
Per the comment at its call site it "validates auth and sets
completed_at + task status": when the caller is the task's poster and
the task is `'accepted'`, it stamps the task's assignment's
`completed_at` and sets the task's status to `'completed'`. -/
def mark_task_completed (uid : UserId) (tid : TaskId) (now : Timestamp) (db : DB) : DB :=
  match db.tasks.find? (fun t => decide (t.id = tid)) with
  | some t =>
    if decide (uid = t.poster_id) && decide (t.status = "accepted") then
      { db with
        tasks := db.tasks.map (fun t' =>
          if decide (t'.id = tid) then { t' with status := "completed" } else t'),
        task_assignments := db.task_assignments.map (fun a =>
          if decide (a.task_id = tid) then { a with completed_at := some now } else a) }
    else db
  | none => db

/-- Modelled from the spec: the stored procedure `mark_task_unassign`
called by `Dashboard.markTaskUnassign` is not among the source files.
Per the spec's lifecycle ("with unassign") and the Dashboard UI (the
button is offered to the poster of an `'accepted'` task whose
assignment has no `completed_at`; afterwards "the task is open again
for others to accept"), it removes the task's assignment and reopens
the task. -/
def mark_task_unassign (uid : UserId) (tid : TaskId) (db : DB) : DB :=
  match db.tasks.find? (fun t => decide (t.id = tid)) with
  | some t =>
    if decide (uid = t.poster_id) && decide (t.status = "accepted") &&
        db.task_assignments.any (fun a =>
          decide (a.task_id = tid) && a.completed_at.isNone) then
      { db with
        tasks := db.tasks.map (fun t' =>
          if decide (t'.id = tid) then { t' with status := "open" } else t'),
        task_assignments := db.task_assignments.filter (fun a =>
          decide (a.task_id ≠ tid)) }
    else db
  | none => db

/-- `ReviewModal.handleSubmit`: refuse when no star is selected
(`rating === 0`); otherwise insert a review with `reviewer_id` taken
from the authenticated user and the empty comment mapped to null. -/
def submitReview (uid : UserId) (tid : TaskId) (reviewee : UserId) (rating : Int)
    (comment : String) (rid : Uuid) (now : Timestamp) (db : DB) : DB :=
  if rating = 0 then db
  else
    (insertReviewRow uid
      { id := rid, task_id := tid, reviewer_id := uid, reviewee_id := reviewee,
        rating := rating,
        comment := if comment = "" then none else some comment,
        created_at := now } db).getD db

/-- `auth.users` insert with the `on_auth_user_created` trigger: the
profile row is created in `public.users`. -/
def signup (new : AuthUser) (db : DB) : DB :=
  { db with users := handle_new_user new db.users }

/-- The state-changing operations the program performs: signup (with
its trigger), task creation, accepting a task (with the status
trigger), the two stored procedures, and review submission.  No other
code path in the repository writes to the database. -/
inductive Op where
  | signup (new : AuthUser)
  | createTask (uid : UserId) (title description : String) (price : ℚ)
      (deadline : Option Timestamp) (tid : TaskId) (now : Timestamp)
  | acceptTask (uid : UserId) (tid : TaskId) (now : Timestamp) (aid : Uuid)
  | markCompleted (uid : UserId) (tid : TaskId) (now : Timestamp)
  | markUnassign (uid : UserId) (tid : TaskId)
  | submitReview (uid : UserId) (tid : TaskId) (reviewee : UserId) (rating : Int)
      (comment : String) (rid : Uuid) (now : Timestamp)
  deriving DecidableEq, Repr

def applyOp : Op → DB → DB
  | .signup new, db => signup new db
  | .createTask uid title description price deadline tid now, db =>
      createTask uid title description price deadline tid now db
  | .acceptTask uid tid now aid, db => acceptTask uid tid now aid db
  | .markCompleted uid tid now, db => mark_task_completed uid tid now db
  | .markUnassign uid tid, db => mark_task_unassign uid tid db
  | .submitReview uid tid reviewee rating comment rid now, db =>
      submitReview uid tid reviewee rating comment rid now db

/-! ### The browse-tasks query (`Dashboard.fetchTasks`) -/

/-- Insert a task into a list kept in descending `created_at` order. -/
def insertByCreatedDesc (t : TaskRow) : List TaskRow → List TaskRow
  | [] => [t]
  | h :: s =>
      if h.created_at ≤ t.created_at then t :: h :: s
      else h :: insertByCreatedDesc t s

/-- Sort tasks by `created_at` descending (`order by created_at desc`). -/
def sortByCreatedDesc (l : List TaskRow) : List TaskRow :=
  l.foldr insertByCreatedDesc []

/-- `Dashboard.fetchTasks`: the rows visible under the select policy,
filtered by `.eq('status','open')` and `.neq('poster_id', user.id)`,
ordered by `created_at` descending. -/
def fetchTasks (uid : UserId) (db : DB) : List TaskRow :=
  sortByCreatedDesc ((db.tasks.filter (fun t => tasksSelectPolicy uid t)).filter
    (fun t => decide (t.status = "open") && decide (t.poster_id ≠ uid)))

/-! ### Rating aggregates (`user_ratings` view and the client) -/

/-- The reviews whose `reviewee_id` is the given user. -/
def userReviews (db : DB) (uid : UserId) : List ReviewRow :=
  db.reviews.filter (fun r => decide (r.reviewee_id = uid))

/-- `avg(rating)` of the `user_ratings` view for one reviewee (SQL
`avg` over an exact numeric column is the exact rational mean). -/
def user_ratings_average (db : DB) (uid : UserId) : ℚ :=
  ((userReviews db uid).map (fun r => (r.rating : ℚ))).sum / (userReviews db uid).length

/-- `count(id)` of the `user_ratings` view for one reviewee. -/
def user_ratings_count (db : DB) (uid : UserId) : ℕ :=
  (userReviews db uid).length

/-- JavaScript `Number(avg.toFixed(2))`: round to the nearest multiple
of 1/100 (JS numbers are modelled exactly, as rationals). -/
def round2 (q : ℚ) : ℚ := (round (100 * q) : ℤ) / 100

/-- The client-side aggregate of `Profile.fetchProfile` in
Dashboard.tsx: `sum = reduce((s, r) => s + (Number(r.rating) || 0), 0)`,
`avg = sum / allReviews.length`, stored as `Number(avg.toFixed(2))`. -/
def dashboardAverageRating (db : DB) (uid : UserId) : ℚ :=
  round2 (((userReviews db uid).map (fun r => (r.rating : ℚ))).sum /
    (userReviews db uid).length)

/-- The client-side `review_count`: `allReviews.length`. -/
def dashboardReviewCount (db : DB) (uid : UserId) : ℕ :=
  (userReviews db uid).length

/-! ### Lifecycle and invariants -/

/-- The status transitions of the spec's lifecycle
`open → accepted → completed, with unassign`. -/
def allowedTransition (s s' : String) : Bool :=
  (decide (s = "open") && decide (s' = "accepted")) ||
  (decide (s = "accepted") && decide (s' = "completed")) ||
  (decide (s = "accepted") && decide (s' = "open"))

/-- Every task row satisfies the status check constraint. -/
def TasksStatusInv (db : DB) : Prop :=
  ∀ t ∈ db.tasks, statusCheck t.status = true

/-- Every review row satisfies the rating check constraint. -/
def ReviewsRatingInv (db : DB) : Prop :=
  ∀ r ∈ db.reviews, ratingCheck r.rating = true

/-! ### Theorems -/

lemma mem_insertByCreatedDesc {a t : TaskRow} {l : List TaskRow} :
    a ∈ insertByCreatedDesc t l ↔ a = t ∨ a ∈ l := by
  induction l with
  | nil => simp [insertByCreatedDesc]
  | cons h s ih =>
      simp only [insertByCreatedDesc]
      split
      · simp [or_comm, or_assoc, or_left_comm]
      · simp only [List.mem_cons, ih]
        tauto

lemma mem_sortByCreatedDesc {a : TaskRow} {l : List TaskRow} :
    a ∈ sortByCreatedDesc l ↔ a ∈ l := by
  induction l with
  | nil => simp [sortByCreatedDesc]
  | cons h s ih =>
      show a ∈ insertByCreatedDesc h (sortByCreatedDesc s) ↔ _
      rw [mem_insertByCreatedDesc]
      simp [ih]

lemma pairwise_insertByCreatedDesc {t : TaskRow} {l : List TaskRow}
    (hl : List.Pairwise (fun a b : TaskRow => b.created_at ≤ a.created_at) l) :
    List.Pairwise (fun a b : TaskRow => b.created_at ≤ a.created_at)
      (insertByCreatedDesc t l) := by
  induction l with
  | nil => simp [insertByCreatedDesc]
  | cons h s ih =>
      rw [List.pairwise_cons] at hl
      simp only [insertByCreatedDesc]
      split
      · rename_i hle
        refine List.pairwise_cons.2 ⟨?_, List.pairwise_cons.2 hl⟩
        intro b hb
        rcases List.mem_cons.1 hb with rfl | hb
        · exact hle
        · exact le_trans (hl.1 b hb) hle
      · rename_i hgt
        refine List.pairwise_cons.2 ⟨?_, ih hl.2⟩
        intro b hb
        rcases mem_insertByCreatedDesc.1 hb with rfl | hb
        · exact le_of_not_le hgt
        · exact hl.1 b hb

lemma pairwise_sortByCreatedDesc (l : List TaskRow) :
    List.Pairwise (fun a b : TaskRow => b.created_at ≤ a.created_at)
      (sortByCreatedDesc l) := by
  induction l with
  | nil => simp [sortByCreatedDesc]
  | cons h s ih => exact pairwise_insertByCreatedDesc ih

/-- C6: the browse-tasks list shown to a signed-in user contains exactly
the tasks whose status is `'open'` and whose poster is not the current
user, ordered by `created_at` descending. -/
theorem fetchTasks_spec : ∀ (uid : UserId) (db : DB),
    (∀ t : TaskRow, t ∈ fetchTasks uid db ↔
      t ∈ db.tasks ∧ t.status = "open" ∧ t.poster_id ≠ uid) ∧
    List.Pairwise (fun a b : TaskRow => b.created_at ≤ a.created_at)
      (fetchTasks uid db) := by
  intro uid db
  constructor
  · intro t
    rw [fetchTasks, mem_sortByCreatedDesc]
    simp [List.mem_filter, tasksSelectPolicy, and_assoc]
  · exact pairwise_sortByCreatedDesc _

/-- C8: the select policy on tasks is the constant `true`, so every
caller can read every task row regardless of its status. -/
theorem tasksSelectPolicy_trivial :
    (∀ (uid : UserId) (t : TaskRow), tasksSelectPolicy uid t = true) ∧
    (∀ (uid : UserId) (db : DB),
      db.tasks.filter (fun t => tasksSelectPolicy uid t) = db.tasks) := by
  refine ⟨fun _ _ => rfl, fun uid db => ?_⟩
  simp [tasksSelectPolicy]

/-- C3: for a new auth user, the signup trigger inserts exactly one
profile row with the same id, name from metadata (defaulting to the
email), phone with the empty string mapped to null, and role `'both'`;
an existing profile with that id leaves the table unchanged. -/
theorem handle_new_user_spec : ∀ (new : AuthUser) (users : List UserRow),
    ((∀ u ∈ users, u.id ≠ new.id) →
      handle_new_user new users = handleNewUserRow new :: users ∧
      (handleNewUserRow new).id = new.id ∧
      (handleNewUserRow new).name =
        (match new.meta_name with | some n => n | none => new.email) ∧
      (handleNewUserRow new).phone =
        (match new.meta_phone with
          | some p => if p = "" then none else some p
          | none => none) ∧
      (handleNewUserRow new).role = "both") ∧
    ((∃ u ∈ users, u.id = new.id) → handle_new_user new users = users) := by
  intro new users
  constructor
  · intro hfresh
    have hany : users.any (fun u => decide (u.id = new.id)) = false := by
      rw [List.any_eq_false]
      intro u hu
      simpa using hfresh u hu
    refine ⟨by rw [handle_new_user, hany]; simp, rfl, ?_, ?_, rfl⟩
    · cases h : new.meta_name <;> simp [handleNewUserRow, h]
    · cases h : new.meta_phone <;> simp [handleNewUserRow, h]
  · rintro ⟨u, hu, hid⟩
    have hany : users.any (fun u => decide (u.id = new.id)) = true :=
      List.any_eq_true.2 ⟨u, hu, by simpa using hid⟩
    rw [handle_new_user, hany]
    simp

/-- Witness for C3 at concrete inputs: a fresh signup with an empty
phone string, and a signup colliding with an existing profile row. -/
theorem handle_new_user_spec_witness :
    (handle_new_user ⟨30, "a@thapar.edu", none, some ""⟩ [] =
        [⟨30, "a@thapar.edu", none, "both"⟩] ∧
      (handleNewUserRow ⟨30, "a@thapar.edu", none, some ""⟩).id = 30 ∧
      (handleNewUserRow ⟨30, "a@thapar.edu", none, some ""⟩).name = "a@thapar.edu" ∧
      (handleNewUserRow ⟨30, "a@thapar.edu", none, some ""⟩).phone = none ∧
      (handleNewUserRow ⟨30, "a@thapar.edu", none, some ""⟩).role = "both") ∧
    handle_new_user ⟨7, "b@thapar.edu", some "B", none⟩
        [⟨7, "old", none, "both"⟩] = [⟨7, "old", none, "both"⟩] := by
  constructor
  · have h := (handle_new_user_spec ⟨30, "a@thapar.edu", none, some ""⟩ []).1
      (by intro u hu; simp at hu)
    exact ⟨by rw [h.1]; rfl, h.2.1, h.2.2.1, h.2.2.2.1, h.2.2.2.2⟩
  · exact (handle_new_user_spec ⟨7, "b@thapar.edu", some "B", none⟩
      [⟨7, "old", none, "both"⟩]).2 ⟨⟨7, "old", none, "both"⟩, by simp, rfl⟩

/-- C9: the create-task operation inserts a row exactly when the
trimmed title has 5 to 100 characters, the trimmed description at most
500 characters, and the price is between 10 and 10000; on validation
failure nothing is inserted, although the tasks check constraint alone
only requires a nonnegative price. -/
theorem createTask_validation :
    (∀ (uid : UserId) (title description : String) (price : ℚ)
        (deadline : Option Timestamp) (tid : TaskId) (now : Timestamp),
      (createTaskRow uid title description price deadline tid now).isSome = true ↔
        (5 ≤ (jsTrim title).length ∧ (jsTrim title).length ≤ 100 ∧
         (jsTrim description).length ≤ 500 ∧ 10 ≤ price ∧ price ≤ 10000)) ∧
    (∀ (uid : UserId) (title description : String) (price : ℚ)
        (deadline : Option Timestamp) (tid : TaskId) (now : Timestamp) (db : DB),
      taskSchemaCheck title description price = false →
      createTask uid title description price deadline tid now db = db) ∧
    (∀ t : TaskRow, statusCheck t.status = true → (taskRowCheck t = true ↔ 0 ≤ t.price)) := by
  refine ⟨?_, ?_, ?_⟩
  · intro uid title description price deadline tid now
    by_cases h : taskSchemaCheck title description price = true
    · simp only [createTaskRow, h, if_true, Option.isSome_some, true_iff]
      simpa [taskSchemaCheck, and_assoc] using h
    · have hb := eq_false_of_ne_true h
      simp only [createTaskRow, hb, Bool.false_eq_true, if_false, Option.isSome_none,
        false_iff]
      intro hc
      apply h
      simp only [taskSchemaCheck, Bool.and_eq_true, decide_eq_true_eq, and_assoc]
      exact hc
  · intro uid title description price deadline tid now db h
    rw [createTask, createTaskRow, h]
    simp
  · intro t hs
    simp [taskRowCheck, hs]

/-- Witness for C9 at concrete inputs: a too-short title is rejected
with no insert, and the database check alone accepts a price of 5. -/
theorem createTask_validation_witness :
    ((createTaskRow 10 "carry my bags" "" 50 none 6 7).isSome = true ↔
      (5 ≤ (jsTrim "carry my bags").length ∧ (jsTrim "carry my bags").length ≤ 100 ∧
        (jsTrim "").length ≤ 500 ∧ 10 ≤ (50 : ℚ) ∧ (50 : ℚ) ≤ 10000)) ∧
    createTask 10 "hi" "" 50 none 6 7
        { users := [], tasks := [], task_assignments := [], reviews := [] } =
      { users := [], tasks := [], task_assignments := [], reviews := [] } ∧
    (taskRowCheck ⟨6, 10, "carry my bags", none, 5, "open", none, 7⟩ = true ↔
      0 ≤ (5 : ℚ)) := by
  refine ⟨createTask_validation.1 10 "carry my bags" "" 50 none 6 7,
    createTask_validation.2.1 10 "hi" "" 50 none 6 7 _ (by decide),
    createTask_validation.2.2 ⟨6, 10, "carry my bags", none, 5, "open", none, 7⟩
      (by decide)⟩

/-- C10: for a user with at least one review, the client-side aggregate
of Dashboard.tsx computes the same review count as the `user_ratings`
view, and the same average up to the two-decimal rounding (their
difference is at most 1/200). -/
theorem rating_aggregate_refines :
    ∀ (db : DB) (uid : UserId), userReviews db uid ≠ [] →
      dashboardReviewCount db uid = user_ratings_count db uid ∧
      |dashboardAverageRating db uid - user_ratings_average db uid| ≤ 1 / 200 := by
  intro db uid _
  refine ⟨rfl, ?_⟩
  have key : ∀ q : ℚ, |round2 q - q| ≤ 1 / 200 := by
    intro q
    have h : |100 * q - ((round (100 * q) : ℤ) : ℚ)| ≤ 1 / 2 := abs_sub_round (100 * q)
    have heq : round2 q - q = -(100 * q - ((round (100 * q) : ℤ) : ℚ)) / 100 := by
      rw [round2]; ring
    have habs : |100 * q - ((round (100 * q) : ℤ) : ℚ)| ≥ 0 := abs_nonneg _
    rw [heq, abs_div, abs_neg, abs_of_pos (show (0:ℚ) < 100 by norm_num)]
    linarith
  simp only [dashboardAverageRating, user_ratings_average]
  exact key _

/-- Witness for C10: a user with two concrete reviews. -/
theorem rating_aggregate_refines_witness :
    userReviews
        { users := [], tasks := [], task_assignments := [],
          reviews := [⟨7, 1, 20, 10, 4, none, 9⟩, ⟨8, 2, 21, 10, 5, none, 11⟩] } 10 ≠ [] ∧
      (dashboardReviewCount
          { users := [], tasks := [], task_assignments := [],
            reviews := [⟨7, 1, 20, 10, 4, none, 9⟩, ⟨8, 2, 21, 10, 5, none, 11⟩] } 10 =
        user_ratings_count
          { users := [], tasks := [], task_assignments := [],
            reviews := [⟨7, 1, 20, 10, 4, none, 9⟩, ⟨8, 2, 21, 10, 5, none, 11⟩] } 10 ∧
      |dashboardAverageRating
          { users := [], tasks := [], task_assignments := [],
            reviews := [⟨7, 1, 20, 10, 4, none, 9⟩, ⟨8, 2, 21, 10, 5, none, 11⟩] } 10 -
        user_ratings_average
          { users := [], tasks := [], task_assignments := [],
            reviews := [⟨7, 1, 20, 10, 4, none, 9⟩, ⟨8, 2, 21, 10, 5, none, 11⟩] } 10| ≤
        1 / 200) :=
  ⟨by decide, rating_aggregate_refines _ 10 (by decide)⟩

/-! ### The reviews insert policy is not correlated with the review's task -/

/-- A database for exercising the reviews insert policy: user 10 posted
tasks 1 and 2; task 2 was completed by tasker 20; task 1 has no
assignment at all. -/
def reviewPolicyDb : DB :=
  { users := [⟨10, "poster", none, "both"⟩, ⟨20, "tasker", none, "both"⟩],
    tasks :=
      [⟨1, 10, "print my report", none, 50, "open", none, 3⟩,
       ⟨2, 10, "carry my bags", none, 30, "completed", none, 5⟩],
    task_assignments := [⟨4, 2, 20, 4, some 5⟩],
    reviews := [] }

/-- A review by user 20 about user 10 attached to task 1 — a task that
has no assignment, completed or otherwise. -/
def strayReview : ReviewRow := ⟨7, 1, 20, 10, 4, none, 9⟩

/-- C2: the policy as written accepts a review for a task with no
completed assignment (task 1), because its `exists` subquery is not
correlated with the inserted row's `task_id`: user 20's completed
assignment on task 2 satisfies it.  The reading stated by the claim
rejects the same insert, and `submitReview` really does append the
stray row. -/
theorem reviews_policy_uncorrelated :
    reviewsInsertPolicy 20 strayReview reviewPolicyDb = true ∧
    reviewsInsertPolicyIntended 20 strayReview reviewPolicyDb = false ∧
    reviewPolicyDb.task_assignments.all
      (fun a => decide (a.task_id ≠ strayReview.task_id)) = true ∧
    (submitReview 20 1 10 4 "" 7 9 reviewPolicyDb).reviews =
      strayReview :: reviewPolicyDb.reviews := by
  refine ⟨by decide, by decide, by decide, ?_⟩
  decide

/-! ### Effect lemmas for the guarded inserts -/

lemma insertAssignmentRow_eq {uid : UserId} {row : AssignmentRow} {db db' : DB}
    (h : insertAssignmentRow uid row db = some db') :
    db' = { db with task_assignments := row :: db.task_assignments } := by
  rw [insertAssignmentRow] at h
  split at h
  · exact (Option.some.inj h).symm
  · exact absurd h (by simp)

lemma insertReviewRow_eq {uid : UserId} {row : ReviewRow} {db db' : DB}
    (h : insertReviewRow uid row db = some db') :
    db' = { db with reviews := row :: db.reviews } ∧ ratingCheck row.rating = true := by
  rw [insertReviewRow] at h
  split at h
  · rename_i hc
    simp only [Bool.and_eq_true] at hc
    exact ⟨(Option.some.inj h).symm, hc.1.2⟩
  · exact absurd h (by simp)

lemma insertTaskRow_eq {uid : UserId} {row : TaskRow} {db db' : DB}
    (h : insertTaskRow uid row db = some db') :
    db' = { db with tasks := row :: db.tasks } ∧ taskRowCheck row = true ∧
      ∀ t ∈ db.tasks, t.id ≠ row.id := by
  rw [insertTaskRow] at h
  split at h
  · rename_i hc
    simp only [Bool.and_eq_true, List.all_eq_true, decide_eq_true_eq] at hc
    exact ⟨(Option.some.inj h).symm, hc.1.2, hc.2⟩
  · exact absurd h (by simp)

lemma createTaskRow_eq {uid : UserId} {title description : String} {price : ℚ}
    {deadline : Option Timestamp} {tid : TaskId} {now : Timestamp} {row : TaskRow}
    (h : createTaskRow uid title description price deadline tid now = some row) :
    row.status = "open" := by
  rw [createTaskRow] at h
  split at h
  · cases Option.some.inj h
    rfl
  · exact absurd h (by simp)

/-- `createTask` either leaves the database unchanged or prepends one
validated, fresh, `'open'` task row. -/
lemma createTask_cases (uid : UserId) (title description : String) (price : ℚ)
    (deadline : Option Timestamp) (tid : TaskId) (now : Timestamp) (db : DB) :
    createTask uid title description price deadline tid now db = db ∨
    ∃ row : TaskRow, row.status = "open" ∧ taskRowCheck row = true ∧
      (∀ t ∈ db.tasks, t.id ≠ row.id) ∧
      createTask uid title description price deadline tid now db =
        { db with tasks := row :: db.tasks } := by
  cases hrow : createTaskRow uid title description price deadline tid now with
  | none => exact Or.inl (by rw [createTask, hrow])
  | some row =>
      cases hins : insertTaskRow uid row db with
      | none => exact Or.inl (by rw [createTask, hrow]; simp [hins])
      | some db' =>
          obtain ⟨hdb', hchk, hfresh⟩ := insertTaskRow_eq hins
          refine Or.inr ⟨row, createTaskRow_eq hrow, hchk, hfresh, ?_⟩
          rw [createTask, hrow]
          simp only [hins, Option.getD_some]
          exact hdb'

/-- `submitReview` either leaves the database unchanged or prepends one
review row that passes the rating check. -/
lemma submitReview_cases (uid : UserId) (tid : TaskId) (reviewee : UserId)
    (rating : Int) (comment : String) (rid : Uuid) (now : Timestamp) (db : DB) :
    submitReview uid tid reviewee rating comment rid now db = db ∨
    ∃ row : ReviewRow, ratingCheck row.rating = true ∧
      submitReview uid tid reviewee rating comment rid now db =
        { db with reviews := row :: db.reviews } := by
  rw [submitReview]
  by_cases h0 : rating = 0
  · rw [if_pos h0]; exact Or.inl rfl
  · rw [if_neg h0]
    cases hins : insertReviewRow uid
        { id := rid, task_id := tid, reviewer_id := uid, reviewee_id := reviewee,
          rating := rating,
          comment := if comment = "" then none else some comment,
          created_at := now } db with
    | none => exact Or.inl (by simp [hins])
    | some db' =>
        obtain ⟨hdb', hchk⟩ := insertReviewRow_eq hins
        refine Or.inr ⟨_, hchk, ?_⟩
        simp only [hins, Option.getD_some]
        exact hdb'

/-- `acceptTask` either leaves the database unchanged, or prepends the
new assignment and runs the status-update trigger. -/
lemma acceptTask_cases (uid : UserId) (tid : TaskId) (now : Timestamp) (aid : Uuid)
    (db : DB) :
    acceptTask uid tid now aid db = db ∨
    acceptTask uid tid now aid db =
      assignmentStatusTrigger tid
        { db with task_assignments :=
            { id := aid, task_id := tid, tasker_id := uid, accepted_at := now,
              completed_at := none } :: db.task_assignments } := by
  cases hins : insertAssignmentRow uid
      (⟨aid, tid, uid, now, none⟩ : AssignmentRow) db with
  | none => exact Or.inl (by rw [acceptTask, hins])
  | some db1 =>
      refine Or.inr ?_
      rw [acceptTask, hins, insertAssignmentRow_eq hins]

/-- Shape of the tasks table after any program operation: unchanged, a
fresh validated `'open'` row prepended, or a single conditional status
update of the accept / complete / unassign kind. -/
lemma tasks_applyOp (op : Op) (db : DB) :
    (applyOp op db).tasks = db.tasks ∨
    (∃ row : TaskRow, row.status = "open" ∧ taskRowCheck row = true ∧
      (∀ t ∈ db.tasks, t.id ≠ row.id) ∧ (applyOp op db).tasks = row :: db.tasks) ∨
    (∃ tid : TaskId, (applyOp op db).tasks = db.tasks.map (fun t =>
      if decide (t.id = tid) && decide (t.status = "open")
      then { t with status := "accepted" } else t)) ∨
    (∃ (tid : TaskId) (t0 : TaskRow),
      db.tasks.find? (fun t => decide (t.id = tid)) = some t0 ∧
      t0.status = "accepted" ∧
      (applyOp op db).tasks = db.tasks.map (fun t' =>
        if decide (t'.id = tid) then { t' with status := "completed" } else t')) ∨
    (∃ (tid : TaskId) (t0 : TaskRow),
      db.tasks.find? (fun t => decide (t.id = tid)) = some t0 ∧
      t0.status = "accepted" ∧
      (applyOp op db).tasks = db.tasks.map (fun t' =>
        if decide (t'.id = tid) then { t' with status := "open" } else t')) := by
  cases op with
  | signup new => exact Or.inl rfl
  | createTask uid title description price deadline tid now =>
      rcases createTask_cases uid title description price deadline tid now db with
        h | ⟨row, hopen, hchk, hfresh, h⟩
      · exact Or.inl (by simp only [applyOp, h])
      · exact Or.inr (Or.inl ⟨row, hopen, hchk, hfresh, by simp only [applyOp, h]⟩)
  | acceptTask uid tid now aid =>
      rcases acceptTask_cases uid tid now aid db with h | h
      · exact Or.inl (by simp only [applyOp, h])
      · exact Or.inr (Or.inr (Or.inl ⟨tid,
          by simp only [applyOp, h, assignmentStatusTrigger]⟩))
  | markCompleted uid tid now =>
      cases hfind : db.tasks.find? (fun t => decide (t.id = tid)) with
      | none => exact Or.inl (by simp only [applyOp, mark_task_completed, hfind])
      | some t0 =>
          by_cases hc : (decide (uid = t0.poster_id) && decide (t0.status = "accepted")) = true
          · refine Or.inr (Or.inr (Or.inr (Or.inl ⟨tid, t0, hfind, ?_, ?_⟩)))
            · simp only [Bool.and_eq_true, decide_eq_true_eq] at hc
              exact hc.2
            · simp only [applyOp, mark_task_completed, hfind]
              rw [if_pos hc]
          · exact Or.inl (by
              simp only [applyOp, mark_task_completed, hfind]
              rw [if_neg hc])
  | markUnassign uid tid =>
      cases hfind : db.tasks.find? (fun t => decide (t.id = tid)) with
      | none => exact Or.inl (by simp only [applyOp, mark_task_unassign, hfind])
      | some t0 =>
          by_cases hc : (decide (uid = t0.poster_id) && decide (t0.status = "accepted") &&
              db.task_assignments.any (fun a =>
                decide (a.task_id = tid) && a.completed_at.isNone)) = true
          · refine Or.inr (Or.inr (Or.inr (Or.inr ⟨tid, t0, hfind, ?_, ?_⟩)))
            · simp only [Bool.and_eq_true, decide_eq_true_eq] at hc
              exact hc.1.2
            · simp only [applyOp, mark_task_unassign, hfind]
              rw [if_pos hc]
          · exact Or.inl (by
              simp only [applyOp, mark_task_unassign, hfind]
              rw [if_neg hc])
  | submitReview uid tid reviewee rating comment rid now =>
      rcases submitReview_cases uid tid reviewee rating comment rid now db with
        h | ⟨row, hchk, h⟩
      · exact Or.inl (by simp only [applyOp, h])
      · exact Or.inl (by simp only [applyOp, h])

/-- C4: a task status is valid exactly when it is `'open'`,
`'accepted'` or `'completed'`; the create-task operation only ever
builds rows with status `'open'`; and every program operation preserves
the status invariant over the tasks table. -/
theorem tasks_status_invariant :
    (∀ s : String, statusCheck s = true ↔ (s = "open" ∨ s = "accepted" ∨ s = "completed")) ∧
    (∀ (uid : UserId) (title description : String) (price : ℚ)
        (deadline : Option Timestamp) (tid : TaskId) (now : Timestamp) (row : TaskRow),
      createTaskRow uid title description price deadline tid now = some row →
      row.status = "open") ∧
    (∀ (op : Op) (db : DB), TasksStatusInv db → TasksStatusInv (applyOp op db)) := by
  refine ⟨?_, ?_, ?_⟩
  · intro s
    simp [statusCheck, or_assoc]
  · intro uid title description price deadline tid now row h
    exact createTaskRow_eq h
  · intro op db hinv
    simp only [TasksStatusInv] at *
    rcases tasks_applyOp op db with h | ⟨row, hopen, _, _, h⟩ | ⟨tid, h⟩ |
      ⟨tid, t0, _, _, h⟩ | ⟨tid, t0, _, _, h⟩
    · rw [h]; exact hinv
    · rw [h]
      intro t ht
      rcases List.mem_cons.1 ht with rfl | ht
      · rw [hopen]; decide
      · exact hinv t ht
    · rw [h]
      intro t' ht'
      rcases List.mem_map.1 ht' with ⟨t, ht, rfl⟩
      by_cases hc : (decide (t.id = tid) && decide (t.status = "open")) = true
      · rw [if_pos hc]
        exact (by decide : statusCheck "accepted" = true)
      · rw [if_neg hc]; exact hinv t ht
    · rw [h]
      intro t' ht'
      rcases List.mem_map.1 ht' with ⟨t, ht, rfl⟩
      by_cases hc : (decide (t.id = tid)) = true
      · rw [if_pos hc]
        exact (by decide : statusCheck "completed" = true)
      · rw [if_neg hc]; exact hinv t ht
    · rw [h]
      intro t' ht'
      rcases List.mem_map.1 ht' with ⟨t, ht, rfl⟩
      by_cases hc : (decide (t.id = tid)) = true
      · rw [if_pos hc]
        exact (by decide : statusCheck "open" = true)
      · rw [if_neg hc]; exact hinv t ht

/-- Witness for C4: the create-task validation at a concrete input
yields an `'open'` row, and the invariant is preserved through a
concrete accept operation. -/
theorem tasks_status_invariant_witness :
    (statusCheck "open" = true ↔
      ("open" = "open" ∨ "open" = "accepted" ∨ "open" = "completed")) ∧
    (⟨6, 10, "print my report", some "", 50, "open", none, 7⟩ : TaskRow).status = "open" ∧
    TasksStatusInv
      (applyOp (Op.acceptTask 20 1 6 5)
        { users := [], tasks := [⟨1, 10, "print my report", none, 50, "open", none, 3⟩],
          task_assignments := [], reviews := [] }) :=
  ⟨tasks_status_invariant.1 "open",
   tasks_status_invariant.2.1 10 "print my report" "" 50 none 6 7
     ⟨6, 10, "print my report", some "", 50, "open", none, 7⟩ (by decide),
   tasks_status_invariant.2.2 (Op.acceptTask 20 1 6 5)
     { users := [], tasks := [⟨1, 10, "print my report", none, 50, "open", none, 3⟩],
       task_assignments := [], reviews := [] }
     (by simp only [TasksStatusInv]; decide)⟩

/-- Each program operation leaves the reviews table unchanged or
prepends a single row that passes the rating check. -/
lemma reviews_applyOp (op : Op) (db : DB) :
    (applyOp op db).reviews = db.reviews ∨
    ∃ row : ReviewRow, ratingCheck row.rating = true ∧
      (applyOp op db).reviews = row :: db.reviews := by
  cases op with
  | signup new => exact Or.inl rfl
  | createTask uid title description price deadline tid now =>
      rcases createTask_cases uid title description price deadline tid now db with
        h | ⟨row, _, _, _, h⟩
      · exact Or.inl (by simp only [applyOp, h])
      · exact Or.inl (by simp only [applyOp, h])
  | acceptTask uid tid now aid =>
      rcases acceptTask_cases uid tid now aid db with h | h
      · exact Or.inl (by simp only [applyOp, h])
      · exact Or.inl (by simp only [applyOp, h, assignmentStatusTrigger])
  | markCompleted uid tid now =>
      cases hfind : db.tasks.find? (fun t => decide (t.id = tid)) with
      | none => exact Or.inl (by simp only [applyOp, mark_task_completed, hfind])
      | some t0 =>
          by_cases hc : (decide (uid = t0.poster_id) && decide (t0.status = "accepted")) = true
          · exact Or.inl (by
              simp only [applyOp, mark_task_completed, hfind]
              rw [if_pos hc])
          · exact Or.inl (by
              simp only [applyOp, mark_task_completed, hfind]
              rw [if_neg hc])
  | markUnassign uid tid =>
      cases hfind : db.tasks.find? (fun t => decide (t.id = tid)) with
      | none => exact Or.inl (by simp only [applyOp, mark_task_unassign, hfind])
      | some t0 =>
          by_cases hc : (decide (uid = t0.poster_id) && decide (t0.status = "accepted") &&
              db.task_assignments.any (fun a =>
                decide (a.task_id = tid) && a.completed_at.isNone)) = true
          · exact Or.inl (by
              simp only [applyOp, mark_task_unassign, hfind]
              rw [if_pos hc])
          · exact Or.inl (by
              simp only [applyOp, mark_task_unassign, hfind]
              rw [if_neg hc])
  | submitReview uid tid reviewee rating comment rid now =>
      rcases submitReview_cases uid tid reviewee rating comment rid now db with
        h | ⟨row, hchk, h⟩
      · exact Or.inl (by simp only [applyOp, h])
      · exact Or.inr ⟨row, hchk, by simp only [applyOp, h]⟩

/-- C7: a review rating is valid exactly when it is between 1 and 5,
the review form performs no insert when no star is selected (rating 0),
and every program operation preserves the rating invariant over the
reviews table. -/
theorem review_rating_invariant :
    (∀ r : Int, ratingCheck r = true ↔ (1 ≤ r ∧ r ≤ 5)) ∧
    (∀ (uid : UserId) (tid : TaskId) (reviewee : UserId) (comment : String)
        (rid : Uuid) (now : Timestamp) (db : DB),
      submitReview uid tid reviewee 0 comment rid now db = db) ∧
    (∀ (op : Op) (db : DB), ReviewsRatingInv db → ReviewsRatingInv (applyOp op db)) := by
  refine ⟨?_, ?_, ?_⟩
  · intro r
    simp [ratingCheck]
  · intro uid tid reviewee comment rid now db
    simp [submitReview]
  · intro op db hinv
    simp only [ReviewsRatingInv] at *
    rcases reviews_applyOp op db with h | ⟨row, hchk, h⟩
    · rw [h]; exact hinv
    · rw [h]
      intro r hr
      rcases List.mem_cons.1 hr with rfl | hr
      · exact hchk
      · exact hinv r hr

/-- Witness for C7: a concrete rating-0 submission is a no-op, and the
invariant is preserved through a concrete review insertion. -/
theorem review_rating_invariant_witness :
    (ratingCheck 3 = true ↔ (1 ≤ (3 : Int) ∧ (3 : Int) ≤ 5)) ∧
    submitReview 20 2 10 0 "late" 7 9
        { users := [], tasks := [],
          task_assignments := [⟨4, 2, 20, 4, some 5⟩], reviews := [] } =
      { users := [], tasks := [],
        task_assignments := [⟨4, 2, 20, 4, some 5⟩], reviews := [] } ∧
    ReviewsRatingInv
      (applyOp (Op.submitReview 20 2 10 4 "late" 7 9)
        { users := [], tasks := [⟨2, 10, "carry my bags", none, 30, "completed", none, 5⟩],
          task_assignments := [⟨4, 2, 20, 4, some 5⟩], reviews := [] }) :=
  ⟨review_rating_invariant.1 3,
   review_rating_invariant.2.1 20 2 10 "late" 7 9 _,
   review_rating_invariant.2.2 (Op.submitReview 20 2 10 4 "late" 7 9) _
     (by simp only [ReviewsRatingInv]; decide)⟩

/-- C5: a tasks row can be updated or deleted only when the caller is
its poster, a users row can be updated or inserted only when the caller
is the row itself, and every caller reads every users row. -/
theorem rls_owner_only :
    (∀ (uid : UserId) (tid : TaskId) (f : TaskRow → TaskRow) (db : DB) (t' : TaskRow),
      t' ∈ (updateTaskRow uid tid f db).tasks →
      t' ∈ db.tasks ∨ ∃ t ∈ db.tasks, t.poster_id = uid ∧ t' = f t) ∧
    (∀ (uid : UserId) (tid : TaskId) (db : DB) (t : TaskRow),
      t ∈ db.tasks → t ∉ (deleteTaskRow uid tid db).tasks → t.poster_id = uid) ∧
    (∀ (uid : UserId) (row : UserRow) (db db' : DB),
      insertUserRow uid row db = some db' → uid = row.id) ∧
    (∀ (uid i : UserId) (f : UserRow → UserRow) (db : DB) (u' : UserRow),
      u' ∈ (updateUserRow uid i f db).users →
      u' ∈ db.users ∨ ∃ u ∈ db.users, u.id = uid ∧ u' = f u) ∧
    (∀ (uid : UserId) (db : DB), selectUsers uid db = db.users) := by
  refine ⟨?_, ?_, ?_, ?_, ?_⟩
  · intro uid tid f db t' h
    simp only [updateTaskRow] at h
    rcases List.mem_map.1 h with ⟨t, ht, hg⟩
    by_cases hc : (decide (t.id = tid) && tasksUpdatePolicy uid t && taskRowCheck (f t)) = true
    · rw [if_pos hc] at hg
      simp only [Bool.and_eq_true, tasksUpdatePolicy, decide_eq_true_eq] at hc
      exact Or.inr ⟨t, ht, hc.1.2.symm, hg.symm⟩
    · rw [if_neg hc] at hg
      exact Or.inl (hg ▸ ht)
  · intro uid tid db t ht hnot
    by_contra hne
    apply hnot
    apply List.mem_filter.2 ⟨ht, ?_⟩
    have huid : uid ≠ t.poster_id := fun h => hne h.symm
    simp [tasksDeletePolicy, huid]
  · intro uid row db db' h
    rw [insertUserRow] at h
    split at h
    · rename_i hc
      simp only [Bool.and_eq_true, usersInsertPolicy, decide_eq_true_eq] at hc
      exact hc.1.1
    · exact absurd h (by simp)
  · intro uid i f db u' h
    simp only [updateUserRow] at h
    rcases List.mem_map.1 h with ⟨u, hu, hg⟩
    by_cases hc : (decide (u.id = i) && usersUpdatePolicy uid u && userRowCheck (f u)) = true
    · rw [if_pos hc] at hg
      simp only [Bool.and_eq_true, usersUpdatePolicy, decide_eq_true_eq] at hc
      exact Or.inr ⟨u, hu, hc.1.2.symm, hg.symm⟩
    · rw [if_neg hc] at hg
      exact Or.inl (hg ▸ hu)
  · intro uid db
    simp [selectUsers, usersSelectPolicy]

/-- Witness for C5 at concrete inputs: every part of the policy
theorem applied to a two-user database, with all hypotheses discharged
by computation. -/
theorem rls_owner_only_witness :
    ((⟨1, 10, "print my report", none, 60, "open", none, 3⟩ : TaskRow) ∈
        [(⟨1, 10, "print my report", none, 50, "open", none, 3⟩ : TaskRow)] ∨
      ∃ t ∈ [(⟨1, 10, "print my report", none, 50, "open", none, 3⟩ : TaskRow)],
        t.poster_id = 10 ∧
          (⟨1, 10, "print my report", none, 60, "open", none, 3⟩ : TaskRow) =
            { t with price := 60 }) ∧
    ((⟨1, 10, "print my report", none, 50, "open", none, 3⟩ : TaskRow).poster_id = 10) ∧
    ((10 : UserId) = (⟨10, "poster", none, "both"⟩ : UserRow).id) ∧
    ((⟨10, "renamed", none, "both"⟩ : UserRow) ∈
        [(⟨10, "poster", none, "both"⟩ : UserRow)] ∨
      ∃ u ∈ [(⟨10, "poster", none, "both"⟩ : UserRow)],
        u.id = 10 ∧
          (⟨10, "renamed", none, "both"⟩ : UserRow) = { u with name := "renamed" }) ∧
    selectUsers 99
        { users := [⟨10, "poster", none, "both"⟩, ⟨20, "tasker", none, "both"⟩],
          tasks := [], task_assignments := [], reviews := [] } =
      [⟨10, "poster", none, "both"⟩, ⟨20, "tasker", none, "both"⟩] :=
  ⟨rls_owner_only.1 10 1 (fun t => { t with price := 60 })
     { users := [], tasks := [⟨1, 10, "print my report", none, 50, "open", none, 3⟩],
       task_assignments := [], reviews := [] } _ (by decide),
   rls_owner_only.2.1 10 1
     { users := [], tasks := [⟨1, 10, "print my report", none, 50, "open", none, 3⟩],
       task_assignments := [], reviews := [] } _ (by decide) (by decide),
   rls_owner_only.2.2.1 10 ⟨10, "poster", none, "both"⟩
     { users := [], tasks := [], task_assignments := [], reviews := [] }
     { users := [⟨10, "poster", none, "both"⟩], tasks := [], task_assignments := [],
       reviews := [] } (by decide),
   rls_owner_only.2.2.2.1 10 10 (fun u => { u with name := "renamed" })
     { users := [⟨10, "poster", none, "both"⟩], tasks := [], task_assignments := [],
       reviews := [] } _ (by decide),
   rls_owner_only.2.2.2.2 99 _⟩

/-- C1: the only status transitions the program's operations perform
are the lifecycle ones.  Accepting an open task moves it to
`'accepted'`; `mark_task_completed` moves an accepted task to
`'completed'`; `mark_task_unassign` moves an accepted task whose
assignment is not completed back to `'open'` and drops the assignment;
and no operation performs any status transition outside
`open → accepted → completed, with unassign` (assuming primary-key
uniqueness of task ids). -/
theorem task_lifecycle :
    (∀ (uid : UserId) (tid : TaskId) (now : Timestamp) (aid : Uuid) (db : DB) (t : TaskRow),
      t ∈ db.tasks → t.id = tid → t.status = "open" →
      (∀ a ∈ db.task_assignments, a.id ≠ aid) →
      { t with status := "accepted" } ∈ (acceptTask uid tid now aid db).tasks) ∧
    (∀ (uid : UserId) (tid : TaskId) (now : Timestamp) (db : DB) (t : TaskRow),
      db.tasks.find? (fun x => decide (x.id = tid)) = some t →
      uid = t.poster_id → t.status = "accepted" →
      { t with status := "completed" } ∈ (mark_task_completed uid tid now db).tasks) ∧
    (∀ (uid : UserId) (tid : TaskId) (db : DB) (t : TaskRow),
      db.tasks.find? (fun x => decide (x.id = tid)) = some t →
      uid = t.poster_id → t.status = "accepted" →
      db.task_assignments.any (fun a =>
        decide (a.task_id = tid) && a.completed_at.isNone) = true →
      { t with status := "open" } ∈ (mark_task_unassign uid tid db).tasks ∧
      ∀ a ∈ (mark_task_unassign uid tid db).task_assignments, a.task_id ≠ tid) ∧
    (∀ (op : Op) (db : DB), (db.tasks.map TaskRow.id).Nodup →
      ∀ t' ∈ (applyOp op db).tasks,
        t' ∈ db.tasks ∨
        (∃ t ∈ db.tasks, t.id = t'.id ∧ allowedTransition t.status t'.status = true) ∨
        (∀ t ∈ db.tasks, t.id ≠ t'.id)) := by
  refine ⟨?_, ?_, ?_, ?_⟩
  · intro uid tid now aid db t ht hid hopen hfresh
    have hins : insertAssignmentRow uid (⟨aid, tid, uid, now, none⟩ : AssignmentRow) db =
        some { db with task_assignments :=
          (⟨aid, tid, uid, now, none⟩ : AssignmentRow) :: db.task_assignments } := by
      rw [insertAssignmentRow, if_pos]
      simp only [assignmentsInsertPolicy, Bool.and_eq_true, decide_eq_true_eq,
        List.all_eq_true]
      exact ⟨by trivial, fun a ha => by simpa using hfresh a ha⟩
    rw [acceptTask, hins]
    simp only [assignmentStatusTrigger]
    refine List.mem_map.2 ⟨t, ht, ?_⟩
    simp [hid, hopen]
  · intro uid tid now db t hfind hpost hacc
    simp only [mark_task_completed, hfind]
    rw [if_pos (by simp [hpost, hacc])]
    have hidt : t.id = tid := by simpa using List.find?_some hfind
    refine List.mem_map.2 ⟨t, List.mem_of_find?_eq_some hfind, ?_⟩
    simp [hidt]
  · intro uid tid db t hfind hpost hacc hany
    simp only [mark_task_unassign, hfind]
    rw [if_pos (by simp [hpost, hacc, hany])]
    have hidt : t.id = tid := by simpa using List.find?_some hfind
    constructor
    · refine List.mem_map.2 ⟨t, List.mem_of_find?_eq_some hfind, ?_⟩
      simp [hidt]
    · intro a ha
      have := (List.mem_filter.1 ha).2
      simpa using this
  · intro op db hnodup t' ht'
    rcases tasks_applyOp op db with h | ⟨row, _, _, hfresh, h⟩ | ⟨tid, h⟩ |
      ⟨tid, t0, hfind, hacc, h⟩ | ⟨tid, t0, hfind, hacc, h⟩
    · rw [h] at ht'
      exact Or.inl ht'
    · rw [h] at ht'
      rcases List.mem_cons.1 ht' with rfl | ht'
      · exact Or.inr (Or.inr (fun t ht => hfresh t ht))
      · exact Or.inl ht'
    · rw [h] at ht'
      rcases List.mem_map.1 ht' with ⟨t, ht, rfl⟩
      by_cases hc : (decide (t.id = tid) && decide (t.status = "open")) = true
      · rw [if_pos hc]
        simp only [Bool.and_eq_true, decide_eq_true_eq] at hc
        refine Or.inr (Or.inl ⟨t, ht, rfl, ?_⟩)
        rw [hc.2]
        exact (by decide : allowedTransition "open" "accepted" = true)
      · rw [if_neg hc]
        exact Or.inl ht
    · rw [h] at ht'
      rcases List.mem_map.1 ht' with ⟨t, ht, rfl⟩
      by_cases hc : (decide (t.id = tid)) = true
      · rw [if_pos hc]
        have hid : t.id = tid := by simpa using hc
        have hid0 : t0.id = tid := by simpa using List.find?_some hfind
        have heq : t = t0 := List.inj_on_of_nodup_map hnodup ht
          (List.mem_of_find?_eq_some hfind) (by rw [hid, hid0])
        refine Or.inr (Or.inl ⟨t, ht, rfl, ?_⟩)
        rw [heq, hacc]
        exact (by decide : allowedTransition "accepted" "completed" = true)
      · rw [if_neg hc]
        exact Or.inl ht
    · rw [h] at ht'
      rcases List.mem_map.1 ht' with ⟨t, ht, rfl⟩
      by_cases hc : (decide (t.id = tid)) = true
      · rw [if_pos hc]
        have hid : t.id = tid := by simpa using hc
        have hid0 : t0.id = tid := by simpa using List.find?_some hfind
        have heq : t = t0 := List.inj_on_of_nodup_map hnodup ht
          (List.mem_of_find?_eq_some hfind) (by rw [hid, hid0])
        refine Or.inr (Or.inl ⟨t, ht, rfl, ?_⟩)
        rw [heq, hacc]
        exact (by decide : allowedTransition "accepted" "open" = true)
      · rw [if_neg hc]
        exact Or.inl ht

/-- Witness for C1: the three lifecycle steps and the
no-other-transition property on a concrete one-task database. -/
theorem task_lifecycle_witness :
    (⟨1, 10, "print my report", none, 50, "accepted", none, 3⟩ : TaskRow) ∈
      (acceptTask 20 1 6 5
        { users := [], tasks := [⟨1, 10, "print my report", none, 50, "open", none, 3⟩],
          task_assignments := [], reviews := [] }).tasks ∧
    (⟨1, 10, "print my report", none, 50, "completed", none, 3⟩ : TaskRow) ∈
      (mark_task_completed 10 1 8
        { users := [], tasks := [⟨1, 10, "print my report", none, 50, "accepted", none, 3⟩],
          task_assignments := [⟨5, 1, 20, 6, none⟩], reviews := [] }).tasks ∧
    ((⟨1, 10, "print my report", none, 50, "open", none, 3⟩ : TaskRow) ∈
      (mark_task_unassign 10 1
        { users := [], tasks := [⟨1, 10, "print my report", none, 50, "accepted", none, 3⟩],
          task_assignments := [⟨5, 1, 20, 6, none⟩], reviews := [] }).tasks ∧
      ∀ a ∈ (mark_task_unassign 10 1
        { users := [], tasks := [⟨1, 10, "print my report", none, 50, "accepted", none, 3⟩],
          task_assignments := [⟨5, 1, 20, 6, none⟩], reviews := [] }).task_assignments,
        a.task_id ≠ 1) ∧
    (∀ t' ∈ (applyOp (Op.markCompleted 10 1 8)
        { users := [], tasks := [⟨1, 10, "print my report", none, 50, "accepted", none, 3⟩],
          task_assignments := [⟨5, 1, 20, 6, none⟩], reviews := [] }).tasks,
      t' ∈ [(⟨1, 10, "print my report", none, 50, "accepted", none, 3⟩ : TaskRow)] ∨
      (∃ t ∈ [(⟨1, 10, "print my report", none, 50, "accepted", none, 3⟩ : TaskRow)],
        t.id = t'.id ∧ allowedTransition t.status t'.status = true) ∨
      (∀ t ∈ [(⟨1, 10, "print my report", none, 50, "accepted", none, 3⟩ : TaskRow)],
        t.id ≠ t'.id)) :=
  ⟨task_lifecycle.1 20 1 6 5
      { users := [], tasks := [⟨1, 10, "print my report", none, 50, "open", none, 3⟩],
        task_assignments := [], reviews := [] }
      ⟨1, 10, "print my report", none, 50, "open", none, 3⟩
      (by decide) (by decide) (by decide) (by decide),
   task_lifecycle.2.1 10 1 8
      { users := [], tasks := [⟨1, 10, "print my report", none, 50, "accepted", none, 3⟩],
        task_assignments := [⟨5, 1, 20, 6, none⟩], reviews := [] }
      ⟨1, 10, "print my report", none, 50, "accepted", none, 3⟩
      (by decide) (by decide) (by decide),
   task_lifecycle.2.2.1 10 1
      { users := [], tasks := [⟨1, 10, "print my report", none, 50, "accepted", none, 3⟩],
        task_assignments := [⟨5, 1, 20, 6, none⟩], reviews := [] }
      ⟨1, 10, "print my report", none, 50, "accepted", none, 3⟩
      (by decide) (by decide) (by decide) (by decide),
   task_lifecycle.2.2.2 (Op.markCompleted 10 1 8)
      { users := [], tasks := [⟨1, 10, "print my report", none, 50, "accepted", none, 3⟩],
        task_assignments := [⟨5, 1, 20, 6, none⟩], reviews := [] }
      (by decide)⟩
